import Mathlib

/-!
Verification of the aparte XMPP terminal client (excerpt: `src/main.rs`,
`src/plugins/ui.rs`, `src/plugins/bookmarks.rs`) against its natural-language
specification.  The Rust data model and the handlers relevant to the claims are
shallowly embedded as executable Lean definitions; stanza emission and event
scheduling are modelled as explicit output lists, nondeterministic inputs
(UUIDs, timestamps, the line-editor contents) as explicit parameters, and Rust
panics (`unwrap`) as `Option.none`.
-/

namespace Aparte

/-! ## Jids (xmpp_parsers `BareJid` / `Jid`) -/

/-- A bare jid `node@domain`. -/
structure BareJid where
  node : String
  domain : String
deriving DecidableEq, Repr

/-- `BareJid::to_string`, printing `node@domain`. -/
def BareJid.toStr (j : BareJid) : String :=
  j.node ++ "@" ++ j.domain

/-- A jid: bare `node@domain` or full `node@domain/resource`. -/
inductive Jid where
  | bare (j : BareJid)
  | full (j : BareJid) (res : String)
deriving DecidableEq, Repr

/-- `Jid::to_string`. -/
def Jid.toStr : Jid → String
  | .bare j => j.toStr
  | .full j r => j.toStr ++ "/" ++ r

/-- `BareJid::from(jid)`: drop the resource. -/
def Jid.toBare : Jid → BareJid
  | .bare j => j
  | .full j _ => j

/-- Split a character list at each occurrence of `sep`. -/
def splitChars (sep : Char) : List Char → List (List Char)
  | [] => [[]]
  | c :: rest =>
      let r := splitChars sep rest
      if c = sep then [] :: r
      else
        match r with
        | [] => [[c]]
        | h :: t => (c :: h) :: t

/-- `BareJid::from_str`: parse `node@domain` (both parts non-empty, no
further `@`).  Failure models the Rust `Err` (the callers `unwrap`). -/
def BareJid.fromStr (s : String) : Option BareJid :=
  match splitChars '@' s.toList with
  | [n, d] =>
      if n = [] ∨ d = [] then none else some ⟨String.mk n, String.mk d⟩
  | _ => none

/-- Modelled from the spec: an `Account` (account.rs is not in src/) is "a
credential-bearing handle equal to the bare jid the client is logged in as"
(spec §3). -/
abbrev Account := BareJid

/-! ## `handle_message` (src/main.rs)

The fields of `xmpp_parsers::message::Message` that `handle_message` reads are
embedded directly: `from`, `type_`, `bodies` (a map from language tag to body,
read at key `""`), and `payloads`.  A payload is either a carbons `Received`
wrapper (`carbons::Received::try_from(payload).ok()` succeeding, with its
`forwarded.stanza` inner message) or anything else; the inner message is
embedded with the fields the code and the claims look at (`from`, `bodies`). -/

inductive MessageType where
  | chat
  | error
  | groupchat
  | headline
  | normal
deriving DecidableEq, Repr

/-- `message.bodies.get("")`: look up the body with the empty language tag. -/
def bodiesGet (bodies : List (String × String)) : Option String :=
  match bodies with
  | [] => none
  | (lang, body) :: rest => if lang = "" then some body else bodiesGet rest

/-- The forwarded inner message of a carbons `Received` wrapper. -/
structure InnerMessage where
  from_ : Option Jid
  bodies : List (String × String)
deriving DecidableEq, Repr

/-- One element of `message.payloads`: a carbons `Received` wrapper (with
`forwarded.stanza` possibly absent) or any other payload element. -/
inductive MsgPayload where
  | received (stanza : Option InnerMessage)
  | other
deriving DecidableEq, Repr

/-- The incoming `xmpp_parsers::message::Message`, restricted to the fields
`handle_message` reads. -/
structure XMessage where
  from_ : Option Jid
  type_ : MessageType
  bodies : List (String × String)
  payloads : List MsgPayload
deriving DecidableEq, Repr

/-- The `for payload in message.payloads` loop of `handle_message`
(src/main.rs lines 87-101): find the first carbons `Received` payload whose
forwarded stanza has a body; print it attributed to the OUTER `from` and
`break`.  When the message type is `Error` the inner conditional is skipped,
so nothing is ever printed. -/
def carbonLoop (from_ : Jid) (type_ : MessageType) :
    List MsgPayload → List (String × String)
  | [] => []
  | .received (some original) :: rest =>
      if type_ ≠ MessageType.error then
        match bodiesGet original.bodies with
        | some body => [(from_.toStr, body)]
        | none => carbonLoop from_ type_ rest
      else carbonLoop from_ type_ rest
  | .received none :: rest => carbonLoop from_ type_ rest
  | .other :: rest => carbonLoop from_ type_ rest

/-- `handle_message` (src/main.rs lines 77-104).  The returned list holds the
`println!("{}: {:?}", jid, body)` outputs as (attribution, body) pairs. -/
def handle_message (message : XMessage) : List (String × String) :=
  match message.from_ with
  | none => []
  | some from_ =>
    match bodiesGet message.bodies with
    | some body =>
        if message.type_ ≠ MessageType.error then [(from_.toStr, body)] else []
    | none => carbonLoop from_ message.type_ message.payloads

/-- The first carbons-wrapped body among the payloads, written after the
claim's words ("the loop stops at the first carbon payload containing a
body"): a claim-side description to compare `handle_message` against. -/
def firstCarbonBody : List MsgPayload → Option String
  | [] => none
  | .received (some original) :: rest =>
      match bodiesGet original.bodies with
      | some body => some body
      | none => firstCarbonBody rest
  | .received none :: rest => firstCarbonBody rest
  | .other :: rest => firstCarbonBody rest

/-! ## The aparte data model used by the UI plugin

Modelled from the spec: `message.rs`, `command.rs` and the `Event` enum of
`core.rs` are not in src/ (only their uses in `ui.rs` and `bookmarks.rs` are);
they follow spec §3 ("Message", "Command", "Event") restricted to the variants
and fields those uses require. -/

/-- Modelled from the spec: `XmppMessage::Chat { id, timestamp, from (bare),
to (bare), body }` (spec §3). -/
structure XmppChat where
  id : String
  timestamp : Int
  from_ : BareJid
  to_ : BareJid
  body : String
deriving DecidableEq, Repr

/-- Modelled from the spec: `XmppMessage::Groupchat` (spec §3); `ui.rs` reads
both a bare `from` (the room, used as window key) and `from_full` (with the
sender nick as resource). -/
structure XmppGroupchat where
  id : String
  timestamp : Int
  from_ : BareJid
  from_full : Jid
  to_ : BareJid
  body : String
deriving DecidableEq, Repr

inductive XmppMessage where
  | chat (m : XmppChat)
  | groupchat (m : XmppGroupchat)
deriving DecidableEq, Repr

/-- Modelled from the spec: `Message::Log { timestamp, body }` (spec §3). -/
structure LogMessage where
  timestamp : Int
  body : String
deriving DecidableEq, Repr

inductive Message where
  | log (m : LogMessage)
  | incoming (m : XmppMessage)
  | outgoing (m : XmppMessage)
deriving DecidableEq, Repr

/-- `Message::outgoing_chat(id, timestamp, &from, &to, body)`.  Modelled from
the spec: message.rs is not in src/; spec §3 gives `Chat` bare `from`/`to`. -/
def Message.outgoing_chat (id : String) (timestamp : Int) (from_ to_ : Jid)
    (body : String) : Message :=
  .outgoing (.chat ⟨id, timestamp, from_.toBare, to_.toBare, body⟩)

/-- `Message::outgoing_groupchat(id, timestamp, &from, &to, body)`.  Modelled
from the spec (spec §3). -/
def Message.outgoing_groupchat (id : String) (timestamp : Int) (from_ to_ : Jid)
    (body : String) : Message :=
  .outgoing (.groupchat ⟨id, timestamp, from_.toBare, from_, to_.toBare, body⟩)

/-- Modelled from the spec: `Command { name, args }` (spec §3). -/
structure Command where
  name : String
  args : List String
deriving DecidableEq, Repr

/-- The termion key events `ui.rs` matches on. -/
inductive Key where
  | char (c : Char)
  | alt (c : Char)
  | ctrl (c : Char)
  | backspace
  | delete
  | home
  | end_
  | up
  | down
  | left
  | right
  | pageUp
  | pageDown
deriving DecidableEq, Repr

/-- Modelled from the spec: the `Event` tagged union (spec §3), restricted to
the variants the claims' handlers match on or schedule. -/
inductive Event where
  | connected (account : Account) (jid : Jid)
  | message (account : Option Account) (m : Message)
  | chat (account : Account) (contact : BareJid)
  | joined (account : Account) (channel : Jid) (user_request : Bool)
  | win (window : String)
  | changeWindow (name : String)
  | key (k : Key)
  | command (c : Command)
  | commandError (msg : String)
  | sendMessage (account : Account) (m : Message)
  | readPassword (c : Command)
  | autoComplete (account : Option Account) (conversation : Option BareJid)
      (raw_buf : String) (cursor : Nat)
  | resetCompletion
  | completed (raw_buf : String) (cursor : Nat)
  | windowChange
deriving DecidableEq, Repr

/-! ## The UI plugin state (src/plugins/ui.rs) -/

inductive ConversationKind where
  | chat
  | group
deriving DecidableEq, Repr

/-- `Conversation { account, jid, kind }` (ui.rs lines 50-55). -/
structure Conversation where
  account : Account
  jid : BareJid
  kind : ConversationKind
deriving DecidableEq, Repr

/-- `HashMap::get` on the conversations map, embedded as an association
list. -/
def mapLookup (m : List (String × Conversation)) (k : String) :
    Option Conversation :=
  match m with
  | [] => none
  | (k2, v) :: rest => if k = k2 then some v else mapLookup rest k

/-- `HashMap::insert` on the conversations map: replace the binding if the key
is present, otherwise add it. -/
def mapInsert (m : List (String × Conversation)) (k : String)
    (v : Conversation) : List (String × Conversation) :=
  match m with
  | [] => [(k, v)]
  | (k2, v2) :: rest =>
      if k = k2 then (k2, v) :: rest else (k2, v2) :: mapInsert rest k v

/-- `linked_hash_set::LinkedHashSet::insert`: the set is kept in insertion
order (front = least recently inserted); inserting a value already present
moves it to the most-recently-inserted end (the crate delegates to
`linked_hash_map::LinkedHashMap::insert`, which detaches and re-attaches an
existing entry; its `insert_if_absent` is the variant that would keep the
position). -/
def lhsInsert (s : List String) (x : String) : List String :=
  (s.erase x) ++ [x]

/-- The mutable state of `UIPlugin` (ui.rs lines 559-567) relevant to the
claims; the view tree, which receives forwarded events but feeds nothing back
into this state, is not represented. -/
structure UIState where
  windows : List String
  current_window : Option String
  unread_windows : List String
  conversations : List (String × Conversation)
  password_command : Option Command
deriving DecidableEq, Repr

/-- `UIPlugin::change_window` (ui.rs lines 701-705): publish
`Event::ChangeWindow` into the view tree and set the current window.  Note it
does not touch `unread_windows`. -/
def change_window (st : UIState) (window : String) : UIState :=
  { st with current_window := some window }

/-- `UIPlugin::add_conversation` (ui.rs lines 574-699): push the jid string
onto `windows`, send `AddWindow` into the view tree, and insert the
conversation keyed by its jid string (both kinds do the same bookkeeping). -/
def add_conversation (st : UIState) (conversation : Conversation) : UIState :=
  { st with
    windows := st.windows ++ [conversation.jid.toStr]
    conversations :=
      mapInsert st.conversations conversation.jid.toStr conversation }

/-- The `for window in &self.windows` scan of the incoming-message branches
(ui.rs lines 955-961, 993-999): the last window equal to the sender's string
and different from the current window, if any. -/
def findUnread (windows : List String) (current : Option String)
    (name : String) : Option String :=
  windows.foldl
    (fun acc w => if name = w ∧ some w ≠ current then some w else acc) none

/-- The `if !self.conversations.contains_key(..) { self.add_conversation(..) }`
block that `UIPlugin::on_event` repeats inline in each of the four
`Event::Message` arms and in the `Event::Chat` / `Event::Joined` arms
(ui.rs lines 943-952, 968-977, 981-990, 1006-1015, 1028-1037, 1047-1056).
`none` models the `unwrap` panics (missing account, failed
`BareJid::from_str`); the arms whose account is not optional pass `some`. -/
def lazyCreate (st : UIState) (account : Option Account) (window_name : String)
    (kind : ConversationKind) : Option UIState :=
  if (mapLookup st.conversations window_name).isNone then do
    let a ← account
    let j ← BareJid.fromStr window_name
    pure (add_conversation st ⟨a, j, kind⟩)
  else pure st

/-- The `Event::Message` arm of `UIPlugin::on_event` (ui.rs lines 939-1018).
`none` models a Rust panic (`unwrap` of a missing account or of a failed
`BareJid::from_str`). -/
def on_message (st : UIState) (account : Option Account) (m : Message) :
    Option UIState :=
  match m with
  | .incoming (.chat message) => do
      let st1 ← lazyCreate st account message.from_.toStr ConversationKind.chat
      match findUnread st1.windows st1.current_window message.from_.toStr with
      | some unread =>
          pure { st1 with unread_windows := lhsInsert st1.unread_windows unread }
      | none => pure st1
  | .outgoing (.chat message) =>
      lazyCreate st account message.to_.toStr ConversationKind.chat
  | .incoming (.groupchat message) => do
      let st1 ← lazyCreate st account message.from_.toStr ConversationKind.group
      match findUnread st1.windows st1.current_window message.from_.toStr with
      | some unread =>
          pure { st1 with unread_windows := lhsInsert st1.unread_windows unread }
      | none => pure st1
  | .outgoing (.groupchat message) =>
      lazyCreate st account message.to_.toStr ConversationKind.group
  | .log _ => pure st

/-- The per-dispatch inputs `UIPlugin::on_event` draws from outside its own
state: the command-line parser (`Command::try_from`, command.rs, abstracted),
the core's current account, the line editor's `Validate` reply
`(raw_buf, password)` and `GetInput` reply `(raw_buf, cursor, password)`, and
the fresh UUID and timestamp for outgoing messages. -/
structure Ctx where
  parse : String → Except String Command
  current_account : Option Account
  validate : String × Bool
  getInput : String × Nat × Bool
  new_id : String
  now : Int

/-- The `Key::Char('\t')` arm (ui.rs lines 1076-1108). -/
def on_tab (ctx : Ctx) (st : UIState) : UIState × List Event :=
  let raw_buf := ctx.getInput.1
  let cursor := ctx.getInput.2.1
  let password := ctx.getInput.2.2
  if password then (st, [Event.key (Key.char '\t')])
  else
    let ac :=
      match st.current_window with
      | some current_window =>
          match mapLookup st.conversations current_window with
          | some conversation =>
              (some conversation.account, some conversation.jid)
          | none => (none, none)
      | none => (none, none)
    (st, [Event.autoComplete ac.1 ac.2 raw_buf cursor])

/-- The `Key::Char('\n')` arm (ui.rs lines 1109-1176): validate the input
line, then route it.  `none` models the `unwrap` panics (no captured password
command, no current account). -/
def on_enter (ctx : Ctx) (st : UIState) : Option (UIState × List Event) :=
  let raw_buf := ctx.validate.1
  let password := ctx.validate.2
  if password then
    match st.password_command with
    | none => none
    | some command =>
        some ({ st with password_command := none },
          [Event.command { command with args := command.args ++ [raw_buf] }])
  else if raw_buf.startsWith "/" then
    match ctx.parse raw_buf with
    | .ok command => some (st, [Event.command command])
    | .error err => some (st, [Event.commandError err])
  else if raw_buf.length > 0 then
    match st.current_window with
    | some current_window =>
        match mapLookup st.conversations current_window with
        | some conversation =>
            match ctx.current_account with
            | none => none
            | some account =>
                let us : Jid := Jid.bare account
                match conversation.kind with
                | .chat =>
                    let to_ : Jid := Jid.bare conversation.jid
                    let message := Message.outgoing_chat ctx.new_id ctx.now
                      us to_ raw_buf
                    some (st, [Event.sendMessage account message])
                | .group =>
                    let to_ : Jid := Jid.bare conversation.jid
                    let message := Message.outgoing_groupchat ctx.new_id ctx.now
                      us to_ raw_buf
                    some (st, [Event.sendMessage account message])
        | none => some (st, [])
    | none => some (st, [])
  else some (st, [])

/-- `UIPlugin::on_event` (ui.rs lines 926-1197).  The returned list holds the
events passed to `aparte.schedule` (with `aparte.log(text)` expanded, per spec
§4.4, to scheduling `Event::Message(None, Message::Log { .. })`); events only
forwarded into the view tree produce no entry.  `none` models a panic. -/
def UIPlugin.on_event (ctx : Ctx) (st : UIState) (e : Event) :
    Option (UIState × List Event) :=
  match e with
  | .readPassword command => some ({ st with password_command := some command }, [])
  | .message account m => (on_message st account m).map (fun st1 => (st1, []))
  | .chat account contact => do
      let win_name := contact.toStr
      let st1 ← lazyCreate st (some account) win_name ConversationKind.chat
      pure (change_window st1 win_name, [])
  | .joined account channel user_request => do
      let win_name := channel.toBare.toStr
      let st1 ← lazyCreate st (some account) win_name ConversationKind.group
      if user_request then pure (change_window st1 win_name, [])
      else pure (st1, [])
  | .win window =>
      if window ∈ st.windows then some (change_window st window, [])
      else
        some (st, [Event.message none
          (.log { timestamp := ctx.now, body := "Unknown window " ++ window })])
  | .key k =>
      match k with
      | Key.char c =>
          if c = '\t' then some (on_tab ctx st)
          else if c = '\n' then on_enter ctx st
          else some (st, [Event.resetCompletion])
      | Key.alt c =>
          if c = 'a' then
            match st.unread_windows with
            | [] => some (st, [])
            | window :: rest =>
                some (change_window { st with unread_windows := rest } window, [])
          else some (st, [Event.resetCompletion])
      | _ => some (st, [Event.resetCompletion])
  | _ => some (st, [])

/-- Run `UIPlugin::on_event` over a sequence of events, discarding the
scheduled outputs (used for concrete end-to-end scenarios). -/
def runEvents (ctx : Ctx) (st : UIState) : List Event → Option UIState
  | [] => some st
  | e :: rest => do
      let (st1, _) ← UIPlugin.on_event ctx st e
      runEvents ctx st1 rest

/-! ## The bookmarks plugin (src/plugins/bookmarks.rs)

The `xmpp_parsers` pubsub / data-form / bookmarks2 structures are embedded
with the fields the plugin populates; payload `Element`s are kept as the typed
values they are converted from. -/

/-- `xmpp_parsers::ns::BOOKMARKS2`, the XEP-0402 PEP node (spec §4.8 /
scenario S3). -/
def ns_BOOKMARKS2 : String := "urn:xmpp:bookmarks:1"

inductive Autojoin where
  | on
  | off
deriving DecidableEq, Repr

/-- `xmpp_parsers::bookmarks2::Conference`. -/
structure Conference where
  autojoin : Autojoin
  name : Option String
  nick : Option String
  password : Option String
deriving DecidableEq, Repr

inductive FieldType where
  | boolean
  | listSingle
deriving DecidableEq, Repr

/-- `xmpp_parsers::data_forms::Field`, restricted to the field kinds the
plugin emits (`media` and `options` are always left empty by the source and
are represented by their lengths being zero, i.e. omitted). -/
structure Field where
  var : String
  type_ : FieldType
  label : Option String
  required : Bool
  values : List String
deriving DecidableEq, Repr

inductive DataFormType where
  | submit
deriving DecidableEq, Repr

/-- `xmpp_parsers::data_forms::DataForm`. -/
structure DataForm where
  type_ : DataFormType
  form_type : Option String
  title : Option String
  instructions : Option String
  fields : List Field
deriving DecidableEq, Repr

/-- A pubsub item payload element: the plugin only ever publishes
`bookmarks2::Conference` payloads. -/
inductive ItemPayload where
  | conference (c : Conference)
deriving DecidableEq, Repr

/-- `xmpp_parsers::pubsub::Item`. -/
structure Item where
  id : Option String
  payload : Option ItemPayload
  publisher : Option String
deriving DecidableEq, Repr

/-- `xmpp_parsers::pubsub::pubsub::Items`. -/
structure Items where
  max_items : Option Nat
  node : String
  subid : Option String
  items : List Item
deriving DecidableEq, Repr

/-- `xmpp_parsers::pubsub::pubsub::Publish`. -/
structure Publish where
  node : String
  items : List Item
deriving DecidableEq, Repr

/-- `xmpp_parsers::pubsub::pubsub::PublishOptions`. -/
structure PublishOptions where
  form : Option DataForm
deriving DecidableEq, Repr

/-- `xmpp_parsers::pubsub::PubSub` (the two variants the plugin builds). -/
inductive PubSub where
  | items (i : Items)
  | publish (publish : Publish) (publish_options : Option PublishOptions)
deriving DecidableEq, Repr

/-- An iq stanza: `Iq::from_get(id, pubsub)` or `Iq::from_set(id, pubsub)`. -/
inductive IqPayload where
  | get (p : PubSub)
  | set (p : PubSub)
deriving DecidableEq, Repr

structure Iq where
  id : String
  payload : IqPayload
deriving DecidableEq, Repr

/-- A stanza `Element` handed to `aparte.send`; the bookmarks plugin only
sends iqs. -/
inductive Element where
  | iq (i : Iq)
deriving DecidableEq, Repr

/-- `BookmarksPlugin::retreive` (bookmarks.rs lines 113-124); the freshly
generated UUID is passed in. -/
def BookmarksPlugin.retreive (id : String) : Element :=
  let items : Items :=
    { max_items := none
      node := ns_BOOKMARKS2
      subid := none
      items := [] }
  Element.iq { id := id, payload := IqPayload.get (PubSub.items items) }

/-- `BookmarksPlugin::add` (bookmarks.rs lines 126-174); the freshly generated
UUID is passed in. -/
def BookmarksPlugin.add (id : String) (name : String) (conference : BareJid)
    (nick : Option String) (autojoin : Bool) : Element :=
  let item : Item :=
    { id := some conference.toStr
      payload := some (ItemPayload.conference
        { autojoin := if autojoin then Autojoin.on else Autojoin.off
          name := some name
          nick := nick
          password := none })
      publisher := none }
  let p : Publish :=
    { node := ns_BOOKMARKS2
      items := [item] }
  let options : PublishOptions :=
    { form := some
        { type_ := DataFormType.submit
          form_type := some "http://jabber.org/protocol/pubsub#publish-options"
          title := none
          instructions := none
          fields :=
            [{ var := "pubsub#persist_items"
               type_ := FieldType.boolean
               label := none
               required := false
               values := ["true"] },
             { var := "pubsub#access_model"
               type_ := FieldType.listSingle
               label := none
               required := false
               values := ["whitelist"] }] } }
  Element.iq { id := id
               payload := IqPayload.set (PubSub.publish p (some options)) }

/-- The `/bookmark add` handler closure (bookmarks.rs lines 40-55): derive the
nick from the conference jid's resource, default `autojoin` to `false`, build
the publish iq and `aparte.send` it.  The returned list holds the sent
stanzas. -/
def bookmark_add_run (id : String) (name : String) (conference : Jid)
    (autojoin : Option Bool) : List Element :=
  let nick : Option String :=
    match conference with
    | Jid.bare _ => none
    | Jid.full _ res => some res
  let aj : Bool :=
    match autojoin with
    | none => false
    | some b => b
  [BookmarksPlugin.add id name conference.toBare nick aj]

/-- The `/bookmark del` handler closure (bookmarks.rs lines 57-73): its body
is exactly `Ok(())`.  The result is (sent stanzas, handler result). -/
def bookmark_del_run (_name : String) : List Element × Except String Unit :=
  ([], Except.ok ())

/-- The `/bookmark edit` handler closure (bookmarks.rs lines 75-95): its body
is exactly `Ok(())`. -/
def bookmark_edit_run (_name : String) : List Element × Except String Unit :=
  ([], Except.ok ())

/-- `BookmarksPlugin::on_event` (bookmarks.rs lines 188-195): send the
retrieve iq on `Connected`, nothing otherwise.  The returned list holds the
sent stanzas. -/
def BookmarksPlugin.on_event (id : String) (e : Event) : List Element :=
  match e with
  | Event.connected _ _ => [BookmarksPlugin.retreive id]
  | _ => []

/-- Discriminator for `Event::Connected`, used to state claim C6's "any other
event" side. -/
def Event.isConnected : Event → Bool
  | Event.connected _ _ => true
  | _ => false

/-- Modelled from the spec: the session core state the empty bookmark handlers
could have touched — "an optional current account …, the pending event queue"
(spec §4.4). -/
structure AparteCore where
  current_account : Option Account
  event_queue : List Event
deriving DecidableEq, Repr

/-- The `/bookmark del` handler closure with its `_aparte` argument
(bookmarks.rs lines 71-73): the body is exactly `Ok(())`, so the core state
comes back untouched and nothing is sent. -/
def bookmark_del_handler (aparte : AparteCore) (_name : String) :
    AparteCore × List Element × Except String Unit :=
  (aparte, [], Except.ok ())

/-- The `/bookmark edit` handler closure with its `_aparte` argument
(bookmarks.rs lines 93-95). -/
def bookmark_edit_handler (aparte : AparteCore) (_name : String) :
    AparteCore × List Element × Except String Unit :=
  (aparte, [], Except.ok ())

/-! ## Claim-side helper descriptions -/

/-- The window key and conversation kind an `Event::Message` is filed under,
per the claim and spec §3: incoming messages key on the sender's bare jid
string, outgoing ones on the recipient's. -/
def msgKeyKind : Message → Option (String × ConversationKind)
  | .incoming (.chat m) => some (m.from_.toStr, ConversationKind.chat)
  | .outgoing (.chat m) => some (m.to_.toStr, ConversationKind.chat)
  | .incoming (.groupchat m) => some (m.from_.toStr, ConversationKind.group)
  | .outgoing (.groupchat m) => some (m.to_.toStr, ConversationKind.group)
  | .log _ => none

/-- The window key of an incoming Chat or Groupchat message (the messages
claim C1 ranges over). -/
def incomingKey : Message → Option String
  | .incoming (.chat m) => some m.from_.toStr
  | .incoming (.groupchat m) => some m.from_.toStr
  | _ => none

/-! ## Concrete instances for witnesses and counterexamples -/

/-- A dispatch context whose line editor holds an empty non-password line; the
parser is never consulted by the runs below. -/
def ctxEmpty : Ctx :=
  { parse := fun _ => Except.error "unused"
    current_account := some ⟨"me", "x"⟩
    validate := ("", false)
    getInput := ("", 0, false)
    new_id := "id0"
    now := 0 }

/-- A dispatch context whose line editor holds the password "pw". -/
def ctxPw : Ctx :=
  { ctxEmpty with validate := ("pw", true) }

/-- A dispatch context whose line editor holds the chat line "hello". -/
def ctxHello : Ctx :=
  { ctxEmpty with validate := ("hello", false) }

/-- The UI state right after `init`: only the console window. -/
def stInit : UIState :=
  { windows := ["console"]
    current_window := some "console"
    unread_windows := []
    conversations := []
    password_command := none }

/-- A conversation with alice\@x. -/
def convAlice : Conversation :=
  { account := ⟨"me", "x"⟩, jid := ⟨"alice", "x"⟩, kind := ConversationKind.chat }

/-- A state whose current window is the alice\@x chat. -/
def stAlice : UIState :=
  { windows := ["console", "alice@x"]
    current_window := some "alice@x"
    unread_windows := []
    conversations := [("alice@x", convAlice)]
    password_command := none }

/-- An incoming chat message event from `n`\@x to me\@x. -/
def incomingFrom (n : String) : Event :=
  Event.message (some ⟨"me", "x"⟩)
    (Message.incoming (XmppMessage.chat
      { id := "m" ++ n, timestamp := 0, from_ := ⟨n, "x"⟩, to_ := ⟨"me", "x"⟩,
        body := "hi" }))

/-- The outer and inner sender of the carbon counterexample message. -/
def c2OuterFrom : Jid := Jid.bare ⟨"alice", "x"⟩

def c2InnerFrom : Jid := Jid.bare ⟨"bob", "y"⟩

/-- A carbon-wrapped incoming message: no direct body, one carbons `Received`
payload whose forwarded stanza is from bob\@y with body "hi". -/
def c2Msg : XMessage :=
  { from_ := some c2OuterFrom
    type_ := MessageType.chat
    bodies := []
    payloads := [MsgPayload.received
      (some { from_ := some c2InnerFrom, bodies := [("", "hi")] })] }

/-- The carbon counterexample message with type `Error`. -/
def c9Msg : XMessage :=
  { c2Msg with type_ := MessageType.error }

/-! ## Lemmas about `handle_message` -/

/-- When the message type is `Error`, the payload loop prints nothing: its
guard is never taken. -/
theorem carbonLoop_error (f : Jid) (ps : List MsgPayload) :
    carbonLoop f MessageType.error ps = [] := by
  induction ps with
  | nil => rfl
  | cons p rest ih =>
      cases p with
      | received s =>
          cases s with
          | none => simpa [carbonLoop] using ih
          | some original => simpa [carbonLoop] using ih
      | other => simpa [carbonLoop] using ih

/-- The payload loop prints at most one line (it breaks after the first). -/
theorem carbonLoop_length (f : Jid) (ty : MessageType) (ps : List MsgPayload) :
    (carbonLoop f ty ps).length ≤ 1 := by
  induction ps with
  | nil => simp [carbonLoop]
  | cons p rest ih =>
      cases p with
      | received s =>
          cases s with
          | none => simpa [carbonLoop] using ih
          | some original =>
              by_cases hty : ty = MessageType.error
              · subst hty; simp [carbonLoop_error]
              · simp only [carbonLoop, if_pos hty]
                cases hb : bodiesGet original.bodies with
                | none => simpa using ih
                | some body => simp
      | other => simpa [carbonLoop] using ih

/-- For non-`Error` messages the payload loop matches the claim-side "first
carbon payload containing a body" description, attributing to `f`. -/
theorem carbonLoop_firstCarbonBody (f : Jid) (ty : MessageType)
    (hty : ty ≠ MessageType.error) (ps : List MsgPayload) :
    carbonLoop f ty ps =
      match firstCarbonBody ps with
      | some body => [(f.toStr, body)]
      | none => [] := by
  induction ps with
  | nil => rfl
  | cons p rest ih =>
      cases p with
      | received s =>
          cases s with
          | none => simpa [carbonLoop, firstCarbonBody] using ih
          | some original =>
              simp only [carbonLoop, firstCarbonBody, if_pos hty]
              cases hb : bodiesGet original.bodies with
              | none => simpa using ih
              | some body => simp
      | other => simpa [carbonLoop, firstCarbonBody] using ih

/-- C9: a message of type `Error` displays nothing, whether its body is
direct or carbon-wrapped; and any message displays at most one body (the
carbon loop stops at the first payload containing one). -/
theorem c9_error_silent_and_at_most_one (m : XMessage) :
    (m.type_ = MessageType.error → handle_message m = []) ∧
    (handle_message m).length ≤ 1 := by
  constructor
  · intro h
    unfold handle_message
    cases m.from_ with
    | none => rfl
    | some f =>
        cases hb : bodiesGet m.bodies with
        | some body => simp [h]
        | none => simp [h, carbonLoop_error]
  · unfold handle_message
    cases m.from_ with
    | none => simp
    | some f =>
        cases hb : bodiesGet m.bodies with
        | some body =>
            by_cases h : m.type_ = MessageType.error <;> simp [h]
        | none => exact carbonLoop_length f m.type_ m.payloads

/-- C9 witness: the concrete `Error`-typed carbon message displays nothing. -/
theorem c9_witness :
    handle_message c9Msg = [] ∧ (handle_message c9Msg).length ≤ 1 :=
  ⟨(c9_error_silent_and_at_most_one c9Msg).1 rfl,
   (c9_error_silent_and_at_most_one c9Msg).2⟩

/-- C2 counterexample: the carbon-wrapped body "hi" (inner sender bob\@y) is
displayed attributed to the OUTER sender alice\@x, not to the inner one as the
claim states. -/
theorem c2_counterexample :
    handle_message c2Msg = [("alice@x", "hi")] ∧
    c2InnerFrom.toStr = "bob@y" ∧ ("alice@x" : String) ≠ "bob@y" :=
  ⟨rfl, rfl, by decide⟩

/-- C2 (amended): for every incoming message stanza with a sender, of
non-`Error` type, carrying no direct body, the first carbon-wrapped body is
unwrapped and displayed as a normal message attributed to the OUTER message's
from address. -/
theorem c2_carbon_unwrap_outer_from (m : XMessage) (f : Jid)
    (hf : m.from_ = some f) (hty : m.type_ ≠ MessageType.error)
    (hb : bodiesGet m.bodies = none) :
    handle_message m =
      match firstCarbonBody m.payloads with
      | some body => [(f.toStr, body)]
      | none => [] := by
  unfold handle_message
  rw [hf, hb]
  exact carbonLoop_firstCarbonBody f m.type_ hty m.payloads

/-- C2 witness: the amended claim evaluated on the concrete carbon message. -/
theorem c2_witness :
    handle_message c2Msg =
      match firstCarbonBody c2Msg.payloads with
      | some body => [(c2OuterFrom.toStr, body)]
      | none => [] :=
  c2_carbon_unwrap_outer_from c2Msg c2OuterFrom rfl (by decide) rfl

/-! ## The bookmarks plugin claims -/

/-- C3: every `/bookmark add` invocation sends exactly one iq-set PubSub
publish stanza on node `urn:xmpp:bookmarks:1`; its single item is keyed by the
conference bare jid, its `Conference` payload carries the given autojoin
(default false), the given name and the nick taken from the jid's resource
when a full jid was given, and its publish-options form demands
`pubsub#persist_items=true` and `pubsub#access_model=whitelist`. -/
theorem c3_bookmark_add_stanza (id name : String) (conference : Jid)
    (autojoin : Option Bool) :
    ∃ p opts,
      bookmark_add_run id name conference autojoin =
        [Element.iq { id := id
                      payload := IqPayload.set (PubSub.publish p (some opts)) }] ∧
      p.node = "urn:xmpp:bookmarks:1" ∧
      p.items =
        [{ id := some conference.toBare.toStr
           payload := some (ItemPayload.conference
             { autojoin :=
                 if autojoin.getD false then Autojoin.on else Autojoin.off
               name := some name
               nick :=
                 match conference with
                 | Jid.bare _ => none
                 | Jid.full _ res => some res
               password := none })
           publisher := none }] ∧
      opts.form = some
        { type_ := DataFormType.submit
          form_type := some "http://jabber.org/protocol/pubsub#publish-options"
          title := none
          instructions := none
          fields :=
            [{ var := "pubsub#persist_items"
               type_ := FieldType.boolean
               label := none
               required := false
               values := ["true"] },
             { var := "pubsub#access_model"
               type_ := FieldType.listSingle
               label := none
               required := false
               values := ["whitelist"] }] } := by
  refine ⟨_, _, rfl, rfl, ?_, rfl⟩
  cases conference with
  | bare j => cases autojoin with
    | none => rfl
    | some b => cases b <;> rfl
  | full j res => cases autojoin with
    | none => rfl
    | some b => cases b <;> rfl

/-- C6: on `Event::Connected` the bookmarks plugin sends exactly one iq-get
for the items of the `urn:xmpp:bookmarks:1` node (no max_items, no subid, an
empty item list), and it sends nothing for any other event. -/
theorem c6_bookmarks_retrieve_on_connected (id : String) (a : Account)
    (j : Jid) (e : Event) (he : e.isConnected = false) :
    BookmarksPlugin.on_event id (Event.connected a j) =
      [Element.iq { id := id
                    payload := IqPayload.get (PubSub.items
                      { max_items := none
                        node := "urn:xmpp:bookmarks:1"
                        subid := none
                        items := [] }) }] ∧
    BookmarksPlugin.on_event id e = [] := by
  constructor
  · rfl
  · cases e <;> simp_all [BookmarksPlugin.on_event, Event.isConnected]

/-- C6 witness: the retrieve iq sent on a concrete `Connected` event, and the
silence on a concrete other event. -/
theorem c6_witness :
    BookmarksPlugin.on_event "i0"
        (Event.connected ⟨"me", "x"⟩ (Jid.bare ⟨"me", "x"⟩)) =
      [Element.iq { id := "i0"
                    payload := IqPayload.get (PubSub.items
                      { max_items := none
                        node := "urn:xmpp:bookmarks:1"
                        subid := none
                        items := [] }) }] ∧
    BookmarksPlugin.on_event "i0" Event.resetCompletion = [] :=
  c6_bookmarks_retrieve_on_connected "i0" ⟨"me", "x"⟩ (Jid.bare ⟨"me", "x"⟩)
    Event.resetCompletion rfl

/-- C8: the `/bookmark del` and `/bookmark edit` handlers return `Ok`, send
no stanza, and leave the core state untouched (their bodies are empty). -/
theorem c8_bookmark_del_edit_noop (aparte : AparteCore) (name : String) :
    (bookmark_del_handler aparte name).1 = aparte ∧
    (bookmark_del_handler aparte name).2.1 = [] ∧
    (bookmark_del_handler aparte name).2.2 = Except.ok () ∧
    (bookmark_edit_handler aparte name).1 = aparte ∧
    (bookmark_edit_handler aparte name).2.1 = [] ∧
    (bookmark_edit_handler aparte name).2.2 = Except.ok () :=
  ⟨rfl, rfl, rfl, rfl, rfl, rfl⟩

/-! ## Lemmas about the UI plugin -/

/-- The window scan of the incoming-message branches picks the sender's name
exactly when it is a known window different from the current one. -/
theorem findUnread_foldl (n : String) (cur : Option String)
    (ws : List String) (acc : Option String) :
    ws.foldl (fun acc w => if n = w ∧ some w ≠ cur then some w else acc) acc =
      if n ∈ ws ∧ some n ≠ cur then some n else acc := by
  induction ws generalizing acc with
  | nil => simp
  | cons w rest ih =>
      rw [List.foldl_cons, ih]
      by_cases h1 : n ∈ rest ∧ some n ≠ cur
      · rw [if_pos h1, if_pos ⟨List.mem_cons_of_mem _ h1.1, h1.2⟩]
      · rw [if_neg h1]
        by_cases h2 : n = w ∧ some w ≠ cur
        · obtain ⟨rfl, hw⟩ := h2
          rw [if_pos ⟨rfl, hw⟩, if_pos ⟨List.mem_cons_self _ _, hw⟩]
        · rw [if_neg h2, if_neg]
          rintro ⟨hmem, hne⟩
          rcases List.mem_cons.mp hmem with h3 | h3
          · exact h2 ⟨h3, h3 ▸ hne⟩
          · exact h1 ⟨h3, hne⟩

theorem findUnread_spec (ws : List String) (cur : Option String) (n : String) :
    findUnread ws cur n = if n ∈ ws ∧ some n ≠ cur then some n else none :=
  findUnread_foldl n cur ws none

/-- Lazy creation never touches the current window, the unread set or the
pending password command. -/
theorem lazyCreate_frame (st : UIState) (account : Option Account)
    (wn : String) (kind : ConversationKind) (st1 : UIState)
    (h : lazyCreate st account wn kind = some st1) :
    st1.current_window = st.current_window ∧
    st1.unread_windows = st.unread_windows ∧
    st1.password_command = st.password_command := by
  unfold lazyCreate at h
  split at h
  · cases account with
    | none => simp at h
    | some a =>
        cases hj : BareJid.fromStr wn with
        | none => simp [hj] at h
        | some jk =>
            simp [hj] at h
            subst h
            exact ⟨rfl, rfl, rfl⟩
  · simp only [pure, Option.some.injEq] at h
    subst h
    exact ⟨rfl, rfl, rfl⟩

/-- When the key is absent, lazy creation adds the conversation. -/
theorem lazyCreate_new (st : UIState) (account : Option Account) (wn : String)
    (kind : ConversationKind) (a : Account) (jk : BareJid)
    (hacc : account = some a) (hj : BareJid.fromStr wn = some jk)
    (hl : mapLookup st.conversations wn = none) :
    lazyCreate st account wn kind =
      some (add_conversation st ⟨a, jk, kind⟩) := by
  unfold lazyCreate
  rw [hl, hacc]
  simp [hj]

/-- When the key is present, lazy creation is the identity. -/
theorem lazyCreate_old (st : UIState) (account : Option Account) (wn : String)
    (kind : ConversationKind) (c : Conversation)
    (hl : mapLookup st.conversations wn = some c) :
    lazyCreate st account wn kind = some st := by
  unfold lazyCreate
  rw [hl]
  rfl

/-- Whatever lazy creation does, the windows list is either preserved or
extended by the new window name. -/
theorem lazyCreate_windows (st : UIState) (account : Option Account)
    (wn : String) (kind : ConversationKind) (st1 : UIState)
    (h : lazyCreate st account wn kind = some st1) :
    st1.windows = st.windows ∨ ∃ s, st1.windows = st.windows ++ [s] := by
  unfold lazyCreate at h
  split at h
  · cases account with
    | none => simp at h
    | some a =>
        cases hj : BareJid.fromStr wn with
        | none => simp [hj] at h
        | some jk =>
            simp [hj] at h
            subst h
            exact Or.inr ⟨jk.toStr, rfl⟩
  · simp only [pure, Option.some.injEq] at h
    subst h
    exact Or.inl rfl

/-- `on_message` always performs exactly the lazy creation for the message's
window key and kind, and then possibly updates only the unread set. -/
theorem on_message_projections (st : UIState) (acc : Option Account)
    (m : Message) (key : String) (kind : ConversationKind)
    (hkk : msgKeyKind m = some (key, kind)) (st1 : UIState)
    (h : on_message st acc m = some st1) :
    ∃ stc, lazyCreate st acc key kind = some stc ∧
      st1.windows = stc.windows ∧
      st1.conversations = stc.conversations ∧
      st1.current_window = stc.current_window := by
  cases m with
  | log m => simp [msgKeyKind] at hkk
  | incoming xm =>
      cases xm with
      | chat msg =>
          simp only [msgKeyKind, Option.some.injEq, Prod.mk.injEq] at hkk
          obtain ⟨hkey, hkind⟩ := hkk
          subst hkey
          subst hkind
          simp only [on_message] at h
          cases hlc : lazyCreate st acc msg.from_.toStr ConversationKind.chat with
          | none => rw [hlc] at h; simp at h
          | some stc =>
              rw [hlc] at h
              simp only [Option.bind_eq_bind, Option.some_bind] at h
              refine ⟨stc, rfl, ?_⟩
              cases hfu : findUnread stc.windows stc.current_window
                  msg.from_.toStr with
              | some u =>
                  rw [hfu] at h
                  simp only [pure, Option.some.injEq] at h
                  subst h
                  exact ⟨rfl, rfl, rfl⟩
              | none =>
                  rw [hfu] at h
                  simp only [pure, Option.some.injEq] at h
                  subst h
                  exact ⟨rfl, rfl, rfl⟩
      | groupchat msg =>
          simp only [msgKeyKind, Option.some.injEq, Prod.mk.injEq] at hkk
          obtain ⟨hkey, hkind⟩ := hkk
          subst hkey
          subst hkind
          simp only [on_message] at h
          cases hlc : lazyCreate st acc msg.from_.toStr ConversationKind.group with
          | none => rw [hlc] at h; simp at h
          | some stc =>
              rw [hlc] at h
              simp only [Option.bind_eq_bind, Option.some_bind] at h
              refine ⟨stc, rfl, ?_⟩
              cases hfu : findUnread stc.windows stc.current_window
                  msg.from_.toStr with
              | some u =>
                  rw [hfu] at h
                  simp only [pure, Option.some.injEq] at h
                  subst h
                  exact ⟨rfl, rfl, rfl⟩
              | none =>
                  rw [hfu] at h
                  simp only [pure, Option.some.injEq] at h
                  subst h
                  exact ⟨rfl, rfl, rfl⟩
  | outgoing xm =>
      cases xm with
      | chat msg =>
          simp only [msgKeyKind, Option.some.injEq, Prod.mk.injEq] at hkk
          obtain ⟨hkey, hkind⟩ := hkk
          subst hkey
          subst hkind
          simp only [on_message] at h
          exact ⟨st1, h, rfl, rfl, rfl⟩
      | groupchat msg =>
          simp only [msgKeyKind, Option.some.injEq, Prod.mk.injEq] at hkk
          obtain ⟨hkey, hkind⟩ := hkk
          subst hkey
          subst hkind
          simp only [on_message] at h
          exact ⟨st1, h, rfl, rfl, rfl⟩

/-- `on_message` succeeds whenever the lazy creation for the message's key
succeeds. -/
theorem on_message_total (st : UIState) (acc : Option Account) (m : Message)
    (key : String) (kind : ConversationKind)
    (hkk : msgKeyKind m = some (key, kind)) (stc : UIState)
    (hlc : lazyCreate st acc key kind = some stc) :
    ∃ st1, on_message st acc m = some st1 := by
  cases m with
  | log m => simp [msgKeyKind] at hkk
  | incoming xm =>
      cases xm with
      | chat msg =>
          simp only [msgKeyKind, Option.some.injEq, Prod.mk.injEq] at hkk
          obtain ⟨hkey, hkind⟩ := hkk
          subst hkey
          subst hkind
          simp only [on_message, hlc, Option.bind_eq_bind, Option.some_bind]
          cases hfu : findUnread stc.windows stc.current_window
              msg.from_.toStr with
          | some u => exact ⟨_, rfl⟩
          | none => exact ⟨_, rfl⟩
      | groupchat msg =>
          simp only [msgKeyKind, Option.some.injEq, Prod.mk.injEq] at hkk
          obtain ⟨hkey, hkind⟩ := hkk
          subst hkey
          subst hkind
          simp only [on_message, hlc, Option.bind_eq_bind, Option.some_bind]
          cases hfu : findUnread stc.windows stc.current_window
              msg.from_.toStr with
          | some u => exact ⟨_, rfl⟩
          | none => exact ⟨_, rfl⟩
  | outgoing xm =>
      cases xm with
      | chat msg =>
          simp only [msgKeyKind, Option.some.injEq, Prod.mk.injEq] at hkk
          obtain ⟨hkey, hkind⟩ := hkk
          subst hkey
          subst hkind
          exact ⟨stc, hlc⟩
      | groupchat msg =>
          simp only [msgKeyKind, Option.some.injEq, Prod.mk.injEq] at hkk
          obtain ⟨hkey, hkind⟩ := hkk
          subst hkey
          subst hkind
          exact ⟨stc, hlc⟩

/-! ## Claim C7: the `Win` event switches or logs -/

/-- C7: `Event::Win(name)` switches the current window when the name is
known; otherwise the state is untouched and a log message naming the unknown
window is scheduled (rendered in the console). -/
theorem c7_win_switch_or_log (ctx : Ctx) (st : UIState) (window : String) :
    (window ∈ st.windows →
      UIPlugin.on_event ctx st (Event.win window) =
        some ({ st with current_window := some window }, [])) ∧
    (window ∉ st.windows →
      UIPlugin.on_event ctx st (Event.win window) =
        some (st, [Event.message none (Message.log
          { timestamp := ctx.now
            body := "Unknown window " ++ window })])) := by
  constructor
  · intro h
    simp [UIPlugin.on_event, change_window, h]
  · intro h
    simp [UIPlugin.on_event, h]

/-- C7 witness: switching to the known console window, and logging for an
unknown window. -/
theorem c7_witness :
    UIPlugin.on_event ctxEmpty stInit (Event.win "console") =
      some ({ stInit with current_window := some "console" }, []) ∧
    UIPlugin.on_event ctxEmpty stInit (Event.win "nowhere") =
      some (stInit, [Event.message none (Message.log
        { timestamp := ctxEmpty.now
          body := "Unknown window " ++ "nowhere" })]) :=
  ⟨(c7_win_switch_or_log ctxEmpty stInit "console").1 (by decide),
   (c7_win_switch_or_log ctxEmpty stInit "nowhere").2 (by decide)⟩

/-! ## Claim C10: Enter on an empty non-password line is a no-op -/

/-- C10: pressing Enter when the input validates to an empty string outside
password mode schedules nothing and leaves the whole UI state (conversations,
windows, unread set, current window) unchanged. -/
theorem c10_enter_empty_noop (ctx : Ctx) (st : UIState)
    (hv : ctx.validate = ("", false)) :
    UIPlugin.on_event ctx st (Event.key (Key.char '\n')) = some (st, []) := by
  have hoe : UIPlugin.on_event ctx st (Event.key (Key.char '\n')) =
      on_enter ctx st := rfl
  rw [hoe]
  unfold on_enter
  rw [hv]
  rfl

/-- C10 witness: the no-op on the concrete post-`init` state. -/
theorem c10_witness :
    UIPlugin.on_event ctxEmpty stInit (Event.key (Key.char '\n')) =
      some (stInit, []) :=
  c10_enter_empty_noop ctxEmpty stInit rfl

/-! ## Claim C4: Enter-key routing -/

/-- C4 counterexample: with an empty validated buffer outside password mode
and a current conversation (alice\@x) present, pressing Enter schedules no
outgoing message at all, although the claim's "otherwise, when a current
conversation exists" clause demands one. -/
theorem c4_counterexample :
    UIPlugin.on_event ctxEmpty stAlice (Event.key (Key.char '\n')) =
      some (stAlice, []) ∧
    stAlice.current_window = some "alice@x" ∧
    mapLookup stAlice.conversations "alice@x" = some convAlice ∧
    ctxEmpty.validate = ("", false) :=
  ⟨rfl, rfl, rfl, rfl⟩

/-- C4 (amended): on Enter the input line is validated and routed: in
password mode the captured pending command is scheduled with the buffer
appended as its last argument; else a buffer starting with `/` is parsed and
scheduled as `Command` on success or `CommandError` on failure; else a
NON-EMPTY buffer with a current conversation is scheduled as an outgoing Chat
or Groupchat message according to the conversation's kind, addressed to the
conversation's jid. -/
theorem c4_enter_routing (ctx : Ctx) (st : UIState) (raw_buf : String)
    (password : Bool) (hv : ctx.validate = (raw_buf, password)) :
    (∀ c, password = true → st.password_command = some c →
      UIPlugin.on_event ctx st (Event.key (Key.char '\n')) =
        some ({ st with password_command := none },
          [Event.command { c with args := c.args ++ [raw_buf] }])) ∧
    (password = false → raw_buf.startsWith "/" = true →
      UIPlugin.on_event ctx st (Event.key (Key.char '\n')) =
        some (st,
          [match ctx.parse raw_buf with
           | Except.ok c => Event.command c
           | Except.error e => Event.commandError e])) ∧
    (∀ w conv a, password = false → raw_buf.startsWith "/" = false →
      0 < raw_buf.length → st.current_window = some w →
      mapLookup st.conversations w = some conv →
      ctx.current_account = some a →
      UIPlugin.on_event ctx st (Event.key (Key.char '\n')) =
        some (st, [Event.sendMessage a
          (match conv.kind with
           | ConversationKind.chat =>
               Message.outgoing (XmppMessage.chat
                 { id := ctx.new_id, timestamp := ctx.now, from_ := a,
                   to_ := conv.jid, body := raw_buf })
           | ConversationKind.group =>
               Message.outgoing (XmppMessage.groupchat
                 { id := ctx.new_id, timestamp := ctx.now, from_ := a,
                   from_full := Jid.bare a, to_ := conv.jid,
                   body := raw_buf }))])) := by
  have hoe : UIPlugin.on_event ctx st (Event.key (Key.char '\n')) =
      on_enter ctx st := rfl
  refine ⟨?_, ?_, ?_⟩
  · intro c hp hpc
    rw [hoe]
    unfold on_enter
    rw [hv, hp, hpc]
    rfl
  · intro hp hsw
    rw [hoe]
    unfold on_enter
    rw [hv, hp]
    simp only [Bool.false_eq_true, if_false, hsw, if_true]
    cases ctx.parse raw_buf <;> rfl
  · intro w conv a hp hsw hlen hcw hmap hacc
    rw [hoe]
    unfold on_enter
    rw [hv, hp]
    simp only [Bool.false_eq_true, if_false, hsw, hlen, if_true, hcw, hmap,
      hacc]
    cases hk : conv.kind <;>
      simp [hk, Message.outgoing_chat, Message.outgoing_groupchat, Jid.toBare]

/-- C4 witness: the password branch on a concrete state with a captured
`/connect` command. -/
theorem c4_witness :
    UIPlugin.on_event ctxPw
        { stInit with password_command := some ⟨"connect", ["me@x"]⟩ }
        (Event.key (Key.char '\n')) =
      some ({ stInit with password_command := none },
        [Event.command ⟨"connect", ["me@x", "pw"]⟩]) :=
  (c4_enter_routing ctxPw
      { stInit with password_command := some ⟨"connect", ["me@x"]⟩ }
      "pw" true rfl).1 ⟨"connect", ["me@x"]⟩ rfl rfl

/-! ## Claim C5: lazy conversation / window creation -/

/-- C5: for every incoming/outgoing Chat or Groupchat message event and every
`Chat` or `Joined` event, a missing conversation keyed by the peer's bare-jid
string is created with the matching kind and a window of that name is
appended, an existing one leaves the conversations map and window list
unchanged, and on `Joined` the current window switches to the room window iff
`user_request` is true. -/
theorem c5_lazy_creation (ctx : Ctx) (st : UIState) :
    (∀ m key kind a jk, msgKeyKind m = some (key, kind) →
      BareJid.fromStr key = some jk → jk.toStr = key →
      mapLookup st.conversations key = none →
      ∃ st1, UIPlugin.on_event ctx st (Event.message (some a) m) =
          some (st1, []) ∧
        st1.windows = st.windows ++ [key] ∧
        st1.conversations = mapInsert st.conversations key ⟨a, jk, kind⟩ ∧
        st1.current_window = st.current_window) ∧
    (∀ m key kind acc c, msgKeyKind m = some (key, kind) →
      mapLookup st.conversations key = some c →
      ∃ st1, UIPlugin.on_event ctx st (Event.message acc m) =
          some (st1, []) ∧
        st1.windows = st.windows ∧
        st1.conversations = st.conversations) ∧
    (∀ a contact jk, BareJid.fromStr contact.toStr = some jk →
      jk.toStr = contact.toStr →
      mapLookup st.conversations contact.toStr = none →
      ∃ st1, UIPlugin.on_event ctx st (Event.chat a contact) =
          some (st1, []) ∧
        st1.windows = st.windows ++ [contact.toStr] ∧
        st1.conversations = mapInsert st.conversations contact.toStr
          ⟨a, jk, ConversationKind.chat⟩) ∧
    (∀ a contact c, mapLookup st.conversations contact.toStr = some c →
      ∃ st1, UIPlugin.on_event ctx st (Event.chat a contact) =
          some (st1, []) ∧
        st1.windows = st.windows ∧
        st1.conversations = st.conversations) ∧
    (∀ a channel ur jk, BareJid.fromStr channel.toBare.toStr = some jk →
      jk.toStr = channel.toBare.toStr →
      mapLookup st.conversations channel.toBare.toStr = none →
      ∃ st1, UIPlugin.on_event ctx st (Event.joined a channel ur) =
          some (st1, []) ∧
        st1.windows = st.windows ++ [channel.toBare.toStr] ∧
        st1.conversations = mapInsert st.conversations channel.toBare.toStr
          ⟨a, jk, ConversationKind.group⟩ ∧
        st1.current_window =
          (if ur then some channel.toBare.toStr else st.current_window)) ∧
    (∀ a channel ur c,
      mapLookup st.conversations channel.toBare.toStr = some c →
      ∃ st1, UIPlugin.on_event ctx st (Event.joined a channel ur) =
          some (st1, []) ∧
        st1.windows = st.windows ∧
        st1.conversations = st.conversations ∧
        st1.current_window =
          (if ur then some channel.toBare.toStr else st.current_window)) := by
  refine ⟨?_, ?_, ?_, ?_, ?_, ?_⟩
  · intro m key kind a jk hkk hj hjs hl
    have hlc := lazyCreate_new st (some a) key kind a jk rfl hj hl
    obtain ⟨st1, h1⟩ := on_message_total st (some a) m key kind hkk _ hlc
    obtain ⟨stc, hlc2, hw, hc, hcw⟩ :=
      on_message_projections st (some a) m key kind hkk st1 h1
    rw [hlc] at hlc2
    injection hlc2 with hlc2
    subst hlc2
    refine ⟨st1, ?_, ?_, ?_, ?_⟩
    · simp [UIPlugin.on_event, h1]
    · rw [hw]; simp [add_conversation, hjs]
    · rw [hc]; simp [add_conversation, hjs]
    · rw [hcw]; simp [add_conversation]
  · intro m key kind acc c hkk hl
    have hlc := lazyCreate_old st acc key kind c hl
    obtain ⟨st1, h1⟩ := on_message_total st acc m key kind hkk _ hlc
    obtain ⟨stc, hlc2, hw, hc, hcw⟩ :=
      on_message_projections st acc m key kind hkk st1 h1
    rw [hlc] at hlc2
    injection hlc2 with hlc2
    subst hlc2
    exact ⟨st1, by simp [UIPlugin.on_event, h1], hw, hc⟩
  · intro a contact jk hj hjs hl
    have hlc := lazyCreate_new st (some a) contact.toStr ConversationKind.chat
      a jk rfl hj hl
    refine ⟨change_window
        (add_conversation st ⟨a, jk, ConversationKind.chat⟩) contact.toStr,
      ?_, ?_, ?_⟩
    · simp only [UIPlugin.on_event, hlc, Option.bind_eq_bind, Option.some_bind]
      rfl
    · simp [change_window, add_conversation, hjs]
    · simp [change_window, add_conversation, hjs]
  · intro a contact c hl
    have hlc := lazyCreate_old st (some a) contact.toStr ConversationKind.chat
      c hl
    refine ⟨change_window st contact.toStr, ?_, rfl, rfl⟩
    simp only [UIPlugin.on_event, hlc, Option.bind_eq_bind, Option.some_bind]
    rfl
  · intro a channel ur jk hj hjs hl
    have hlc := lazyCreate_new st (some a) channel.toBare.toStr
      ConversationKind.group a jk rfl hj hl
    cases ur with
    | true =>
        refine ⟨change_window
            (add_conversation st ⟨a, jk, ConversationKind.group⟩)
            channel.toBare.toStr, ?_, ?_, ?_, ?_⟩
        · simp only [UIPlugin.on_event, hlc, Option.bind_eq_bind,
            Option.some_bind]
          rfl
        · simp [change_window, add_conversation, hjs]
        · simp [change_window, add_conversation, hjs]
        · simp [change_window, add_conversation]
    | false =>
        refine ⟨add_conversation st ⟨a, jk, ConversationKind.group⟩,
          ?_, ?_, ?_, ?_⟩
        · simp only [UIPlugin.on_event, hlc, Option.bind_eq_bind,
            Option.some_bind]
          rfl
        · simp [add_conversation, hjs]
        · simp [add_conversation, hjs]
        · simp [add_conversation]
  · intro a channel ur c hl
    have hlc := lazyCreate_old st (some a) channel.toBare.toStr
      ConversationKind.group c hl
    cases ur with
    | true =>
        refine ⟨change_window st channel.toBare.toStr, ?_, rfl, rfl, ?_⟩
        · simp only [UIPlugin.on_event, hlc, Option.bind_eq_bind,
            Option.some_bind]
          rfl
        · simp [change_window]
    | false =>
        refine ⟨st, ?_, rfl, rfl, ?_⟩
        · simp only [UIPlugin.on_event, hlc, Option.bind_eq_bind,
            Option.some_bind]
          rfl
        · simp

/-! ## Claim C1: the unread-window lifecycle -/

/-- C1 counterexample: starting from the fresh console state, deliver
incoming chats from alice\@x, bob\@x, alice\@x and then `Win("alice@x")`
(which runs `change_window("alice@x")`).  The claim predicts the unread set
`["bob@x"]` (order kept on the repeated alice message, alice removed by
`change_window`); the code leaves `["bob@x", "alice@x"]` — the repeated
message moved alice\@x to the most-recent end and `change_window` removed
nothing. -/
theorem c1_counterexample :
    (runEvents ctxEmpty stInit
        [incomingFrom "alice", incomingFrom "bob", incomingFrom "alice",
         Event.win "alice@x"]).map UIState.unread_windows =
      some ["bob@x", "alice@x"] ∧
    (["bob@x", "alice@x"] : List String) ≠ ["bob@x"] ∧
    (["bob@x", "alice@x"] : List String) ≠ ["alice@x", "bob@x"] :=
  ⟨rfl, by decide, by decide⟩

/-- C1 (amended): for every incoming Chat or Groupchat message whose window
name w is a known window different from the current one, w is moved to the
most-recently-inserted end of the unread set (appended when absent,
repositioned when already present); a message for the current window leaves
the set unchanged; `change_window(w)` never modifies the unread set; and
Alt-a pops the oldest unread window and switches the current window to it (a
no-op when the set is empty). -/
theorem c1_unread_lifecycle (ctx : Ctx) (st : UIState) :
    (∀ acc m key st1, incomingKey m = some key →
      on_message st acc m = some st1 →
      st1.current_window = st.current_window ∧
      (key ∈ st1.windows ∧ some key ≠ st.current_window →
        st1.unread_windows = (st.unread_windows.erase key) ++ [key]) ∧
      (some key = st.current_window →
        st1.unread_windows = st.unread_windows)) ∧
    (∀ w, (change_window st w).unread_windows = st.unread_windows) ∧
    (st.unread_windows = [] →
      UIPlugin.on_event ctx st (Event.key (Key.alt 'a')) = some (st, [])) ∧
    (∀ w rest, st.unread_windows = w :: rest →
      UIPlugin.on_event ctx st (Event.key (Key.alt 'a')) =
        some ({ st with
                unread_windows := rest
                current_window := some w }, [])) := by
  refine ⟨?_, fun w => rfl, ?_, ?_⟩
  · intro acc m key st1 hik h
    cases m with
    | log m => simp [incomingKey] at hik
    | outgoing xm => simp [incomingKey] at hik
    | incoming xm =>
        cases xm with
        | chat msg =>
            simp only [incomingKey, Option.some.injEq] at hik
            subst hik
            simp only [on_message] at h
            cases hlc : lazyCreate st acc msg.from_.toStr
                ConversationKind.chat with
            | none => rw [hlc] at h; simp at h
            | some stc =>
                rw [hlc] at h
                simp only [Option.bind_eq_bind, Option.some_bind] at h
                obtain ⟨hcw, hun, _⟩ :=
                  lazyCreate_frame st acc msg.from_.toStr
                    ConversationKind.chat stc hlc
                rw [findUnread_spec] at h
                by_cases hcond : msg.from_.toStr ∈ stc.windows ∧
                    some msg.from_.toStr ≠ stc.current_window
                · rw [if_pos hcond] at h
                  simp only [pure, Option.some.injEq] at h
                  subst h
                  refine ⟨hcw, fun _ => ?_, fun heq => ?_⟩
                  · simp [lhsInsert, hun]
                  · rw [hcw] at hcond
                    exact absurd heq hcond.2
                · rw [if_neg hcond] at h
                  simp only [pure, Option.some.injEq] at h
                  subst h
                  refine ⟨hcw, fun hc => ?_, fun _ => hun⟩
                  rw [hcw] at hcond
                  exact absurd hc hcond
        | groupchat msg =>
            simp only [incomingKey, Option.some.injEq] at hik
            subst hik
            simp only [on_message] at h
            cases hlc : lazyCreate st acc msg.from_.toStr
                ConversationKind.group with
            | none => rw [hlc] at h; simp at h
            | some stc =>
                rw [hlc] at h
                simp only [Option.bind_eq_bind, Option.some_bind] at h
                obtain ⟨hcw, hun, _⟩ :=
                  lazyCreate_frame st acc msg.from_.toStr
                    ConversationKind.group stc hlc
                rw [findUnread_spec] at h
                by_cases hcond : msg.from_.toStr ∈ stc.windows ∧
                    some msg.from_.toStr ≠ stc.current_window
                · rw [if_pos hcond] at h
                  simp only [pure, Option.some.injEq] at h
                  subst h
                  refine ⟨hcw, fun _ => ?_, fun heq => ?_⟩
                  · simp [lhsInsert, hun]
                  · rw [hcw] at hcond
                    exact absurd heq hcond.2
                · rw [if_neg hcond] at h
                  simp only [pure, Option.some.injEq] at h
                  subst h
                  refine ⟨hcw, fun hc => ?_, fun _ => hun⟩
                  rw [hcw] at hcond
                  exact absurd hc hcond
  · intro hu
    simp [UIPlugin.on_event, hu]
  · intro w rest hu
    simp [UIPlugin.on_event, hu, change_window]

/-- C1 witness: Alt-a on a state with one unread window pops it and switches
to it. -/
theorem c1_witness :
    UIPlugin.on_event ctxEmpty
        { windows := ["console"], current_window := some "console",
          unread_windows := ["bob@x"], conversations := [],
          password_command := none }
        (Event.key (Key.alt 'a')) =
      some ({ windows := ["console"], current_window := some "bob@x",
              unread_windows := [], conversations := [],
              password_command := none }, []) :=
  (c1_unread_lifecycle ctxEmpty
      { windows := ["console"], current_window := some "console",
        unread_windows := ["bob@x"], conversations := [],
        password_command := none }).2.2.2 "bob@x" [] rfl

/-- C5 witness: the first incoming chat from bob\@x on the fresh state creates
the conversation and its window. -/
theorem c5_witness :
    ∃ st1, UIPlugin.on_event ctxEmpty stInit (incomingFrom "bob") =
        some (st1, []) ∧
      st1.windows = stInit.windows ++ ["bob@x"] ∧
      st1.conversations = mapInsert stInit.conversations "bob@x"
        ⟨⟨"me", "x"⟩, ⟨"bob", "x"⟩, ConversationKind.chat⟩ ∧
      st1.current_window = stInit.current_window :=
  (c5_lazy_creation ctxEmpty stInit).1
    (Message.incoming (XmppMessage.chat
      { id := "mbob", timestamp := 0, from_ := ⟨"bob", "x"⟩,
        to_ := ⟨"me", "x"⟩, body := "hi" }))
    "bob@x" ConversationKind.chat ⟨"me", "x"⟩ ⟨"bob", "x"⟩
    rfl (by decide) rfl rfl

end Aparte
